import Mathlib

/-!
Verification of the ramp audio player (Rust) against its natural-language
specification, via a shallow embedding of the playback engine in Lean 4.

The embedding covers:
* the Loader decoder closure (`src/player/loader.rs`, `LoadedSong::load`);
* the realtime output-stream callback (`src/player/mod.rs`,
  `Player::create_playback`);
* the ReplayGain pipeline of `Song::load` (`src/song.rs`);
* the player actor: status, queue, command handlers and the run loop
  (`src/player/mod.rs`).

Conventions of the embedding:
* PCM samples (`f32` in the source) are modelled as rationals;
* fallible Rust functions returning `anyhow::Result<T>` become
  `Except String T`; a Rust `.unwrap()` on an `Err` is modelled as `none`
  (panic) in an `Option`-valued step function;
* mutation through `&mut self` that happens before an early `?` return is
  preserved: handlers return the (possibly partially mutated) state
  alongside the `Except` result;
* the symphonia format reader is modelled as a list of packet events; an
  exhausted list behaves like the reader at end of stream (symphonia keeps
  returning the end-of-stream error once reached).
-/

namespace Ramp

/-! ## Loader: the decoder closure of `LoadedSong::load` (loader.rs 69-102) -/

/-- View of an `Except` value as a sum, used to derive decidable equality. -/
def exceptToSum {ε α : Type} : Except ε α → ε ⊕ α
  | Except.error e => Sum.inl e
  | Except.ok a => Sum.inr a

instance {ε α : Type} [DecidableEq ε] [DecidableEq α] : DecidableEq (Except ε α) :=
  fun x y =>
    decidable_of_iff (exceptToSum x = exceptToSum y)
      (by cases x <;> cases y <;> simp [exceptToSum])

/-- One event produced by the container format reader (`next_packet`):
a packet for some track whose decode either succeeds with a sample chunk
or fails, a clean end of stream, or a read error. -/
inductive PacketEvent
  | packet (trackId : Nat) (payload : Except String (List ℚ))
  | endOfStream
  | readErr (msg : String)
deriving DecidableEq, Repr

/-- The decoder closure built by `LoadedSong::load`: pull one packet from the
format reader. Returns the optional decoded chunk, the end-of-stream flag and
the remaining reader state; decode and read failures are returned as errors
(`anyhow::bail!`), exactly as in loader.rs lines 69-102. -/
def decoderNext (trackId : Nat) (events : List PacketEvent) :
    Except String ((Option (List ℚ) × Bool) × List PacketEvent) :=
  match events with
  | [] => Except.ok ((none, true), [])
  | PacketEvent.packet tid payload :: rest =>
      if tid = trackId then
        match payload with
        | Except.ok samples => Except.ok ((some samples, false), rest)
        | Except.error e => Except.error ("Failed to decode packet " ++ e)
      else Except.ok ((none, false), rest)
  | PacketEvent.endOfStream :: rest => Except.ok ((none, true), rest)
  | PacketEvent.readErr e :: _ => Except.error ("Failed to read packet " ++ e)

/-! ## Playback stream callback (mod.rs 192-224) -/

/-- State owned by the audio callback closure: the `VecDeque<f32>` sample
backlog plus the decoder state (selected track id and pending reader events). -/
structure PlaybackState where
  buffer : List ℚ
  trackId : Nat
  events : List PacketEvent
deriving DecidableEq, Repr

/-- Result of the fill loop inside the callback: normal completion with the
written samples, the remaining backlog and reader state and the number of
`Skip` commands sent; or a panic (an `unwrap` of a decode error); or fuel
exhaustion (the loop did not terminate within the given bound). -/
inductive FillResult
  | done (written : List ℚ) (buffer : List ℚ) (events : List PacketEvent) (skips : Nat)
  | panic
  | fuelOut
deriving DecidableEq, Repr

/-- The `while byte_count < dest.len()` loop of the callback
(mod.rs 201-219): while the destination is not full, pull one chunk whenever
the backlog is shorter than the destination, send `Skip` on end of stream,
then drain `min (dest.len() - byte_count) (buffer.len())` samples into the
destination, scaling each by the gain factor. The `.unwrap()` on the decoder
result makes a decode error a panic. Fuel bounds the number of iterations. -/
def fillLoop (gain : ℚ) (trackId : Nat) (destLen : Nat) :
    Nat → List ℚ → List ℚ → List PacketEvent → Nat → FillResult
  | fuel, written, buffer, events, skips =>
    if destLen ≤ written.length then FillResult.done written buffer events skips
    else
      match fuel with
      | 0 => FillResult.fuelOut
      | fuel2 + 1 =>
        if buffer.length < destLen then
          match decoderNext trackId events with
          | Except.error _ => FillResult.panic
          | Except.ok ((chunk, endOfStream), rest) =>
              let buffer2 := buffer ++ chunk.getD []
              let skips2 := if endOfStream then skips + 1 else skips
              let k := min (destLen - written.length) buffer2.length
              fillLoop gain trackId destLen fuel2
                (written ++ (buffer2.take k).map (fun s => s * gain))
                (buffer2.drop k) rest skips2
        else
          let k := min (destLen - written.length) buffer.length
          fillLoop gain trackId destLen fuel2
            (written ++ (buffer.take k).map (fun s => s * gain))
            (buffer.drop k) events skips

/-- Outcome of one invocation of the audio callback. -/
inductive CallbackResult
  | ok (written : List ℚ) (state : PlaybackState) (skips : Nat) (durationAfter : ℚ)
  | panic
  | fuelOut
deriving DecidableEq, Repr

/-- One invocation of the output-stream callback (mod.rs 192-224): if the
pause flag is set, fill the destination with silence and return without
touching the backlog, the decoder or the duration cell; otherwise run the
fill loop and then advance the played duration by
`dest.len() / channels / sample_rate` seconds. -/
def callback (gain channels rate : ℚ) (paused : Bool) (destLen : Nat)
    (st : PlaybackState) (dur : ℚ) (fuel : Nat) : CallbackResult :=
  if paused then CallbackResult.ok (List.replicate destLen 0) st 0 dur
  else
    match fillLoop gain st.trackId destLen fuel [] st.buffer st.events 0 with
    | FillResult.panic => CallbackResult.panic
    | FillResult.fuelOut => CallbackResult.fuelOut
    | FillResult.done written buffer events skips =>
        CallbackResult.ok written ⟨buffer, st.trackId, events⟩ skips
          (dur + (destLen : ℚ) / channels / rate)

/-! ## ReplayGain pipeline of `Song::load` (song.rs 565-591) -/

/-- A symphonia metadata tag value, as far as the gain pipeline inspects it:
either a string or some other (non-string) value. -/
inductive TagValue
  | str (s : String)
  | other
deriving DecidableEq, Repr

/-- Accumulate a run of decimal digit characters into a natural number. -/
def digitsToNat (cs : List Char) : Nat :=
  cs.foldl (fun acc c => acc * 10 + (c.toNat - 48)) 0

/-- Parse an unsigned decimal number (digits, optionally a point and more
digits) from a character list, as accepted by the decimal fragment of Rust
`f32::from_str`; exotic forms (exponents, inf, NaN) are outside the values
the gain pipeline ever meets and are not modelled. -/
def parseUnsigned (cs : List Char) : Option ℚ :=
  let intPart := cs.takeWhile Char.isDigit
  let rest := cs.dropWhile Char.isDigit
  match rest with
  | [] => if intPart.isEmpty then none else some (mkRat (digitsToNat intPart) 1)
  | c :: rest2 =>
      if c = Char.ofNat 46 then
        let fracPart := rest2.takeWhile Char.isDigit
        let rest3 := rest2.dropWhile Char.isDigit
        if rest3 = [] ∧ (intPart ≠ [] ∨ fracPart ≠ []) then
          some (mkRat (digitsToNat intPart * 10 ^ fracPart.length + digitsToNat fracPart)
            (10 ^ fracPart.length))
        else none
      else none

/-- Parse a signed decimal number (the decimal fragment of `f32::from_str`). -/
def parseDecimalChars (cs : List Char) : Option ℚ :=
  match cs with
  | [] => none
  | c :: rest =>
      if c = Char.ofNat 45 then (parseUnsigned rest).map (fun q => -q)
      else if c = Char.ofNat 43 then parseUnsigned rest
      else parseUnsigned cs

/-- The characters of the literal suffix stripped by the gain pipeline:
a space, a lowercase d and an uppercase B. -/
def dbSuffix : List Char := [Char.ofNat 32, Char.ofNat 100, Char.ofNat 66]

/-- The `s.strip_suffix(" dB").unwrap_or(s)` step of the gain pipeline. -/
def stripDbSuffix (cs : List Char) : List Char :=
  if dbSuffix.isSuffixOf cs then cs.take (cs.length - dbSuffix.length) else cs

/-- The decibel value extracted from the `ReplayGainTrackGain` standard tag:
present only when the tag exists, is a string, and parses as a decimal after
stripping a trailing cs dB suffix. Any failure in this chain is caught by the
`unwrap_or_else` in song.rs and yields no value. -/
def replayGainDb (tag : Option TagValue) : Option ℚ :=
  match tag with
  | some (TagValue.str s) => parseDecimalChars (stripDbSuffix s.data)
  | _ => none

/-- The linear gain factor of `Song::load` (song.rs 565-591):
`10^(dB/20)` when a decibel value was extracted, `1.0` otherwise. The `f32`
power is idealised over the reals. -/
noncomputable def gainFactor (tag : Option TagValue) : ℝ :=
  match replayGainDb tag with
  | some x => (10 : ℝ) ^ ((x : ℝ) / 20)
  | none => 1

/-! ## Player actor (mod.rs 27-163, 235-372) -/

/-- A cached song, reduced to the identity the actor manipulates. -/
structure Song where
  path : String
deriving DecidableEq, Repr

/-- A cache tree entry (`CacheEntry` in cache.rs): a file holding a song or a
directory. The directory children are elided: the player only ever calls
`as_file` on an entry. -/
inductive CacheEntry
  | file (song : Song)
  | directory
deriving DecidableEq, Repr

/-- `CacheEntry::as_file` (cache.rs 183-190): the song of a file entry,
an error on a directory. -/
def CacheEntry.as_file : CacheEntry → Except String Song
  | CacheEntry.file song => Except.ok song
  | CacheEntry.directory => Except.error ("CacheEntry::into_song called on directory")

/-- The environment of effectful collaborators of `Player::play`:
`cache.get(path)` (which can itself fail, or find nothing, cache.rs 113-147)
and `LoadedSong::load` (file open, probe, decoder construction; its payload is
reduced to the metadata revision the actor stores). -/
structure Env where
  cacheGet : String → Except String (Option CacheEntry)
  load : Song → Except String (Option String)

/-- The cache-lookup-and-load pipeline of `Player::play` (mod.rs 62-76):
get the entry from the cache, fail if absent, demand a file entry, then load
the song. Returns the song together with the loaded metadata. -/
def Env.fetchAndLoad (env : Env) (path : String) : Except String (Song × Option String) :=
  match env.cacheGet path with
  | Except.error e => Except.error e
  | Except.ok none => Except.error ("Song not found in cache")
  | Except.ok (some entry) =>
      match entry.as_file with
      | Except.error e => Except.error e
      | Except.ok song =>
          match env.load song with
          | Except.error e => Except.error e
          | Except.ok m => Except.ok (song, m)

/-- `InternalPlayerStatus` (mod.rs 27-36). The shared cells (pause flag,
played duration) are inlined as fields; the device stream handle carries no
actor-visible state and is elided. -/
inductive InternalPlayerStatus
  | playingOrPaused (song : Song) (metadata : Option String)
      (playingDuration : ℚ) (streamPaused : Bool)
  | stopped
deriving DecidableEq, Repr

/-- The player actor state: status and pending-path queue (mod.rs 38-44). -/
structure Player where
  status : InternalPlayerStatus
  queue : List String
deriving DecidableEq, Repr

/-- The command vocabulary (command.rs). -/
inductive Command
  | play
  | pause
  | playPause
  | skip
  | stop
  | clear
  | enqueue (path : String)
  | dequeue (index : Nat)
deriving DecidableEq, Repr

/-- `Player::play` (mod.rs 48-89): resume if paused; then, if stopped and the
queue is non-empty, pop the front path (the pop happens before any fallible
step, so a failed path is already dropped when the error propagates), fetch
and load it, and on success become playing with a fresh unpaused stream and a
zeroed duration cell. -/
def Player.play (env : Env) (p : Player) : Player × Except String Unit :=
  let p1 :=
    match p.status with
    | InternalPlayerStatus.playingOrPaused song m d paused =>
        if paused then
          { p with status := InternalPlayerStatus.playingOrPaused song m d false }
        else p
    | InternalPlayerStatus.stopped => p
  match p1.status with
  | InternalPlayerStatus.playingOrPaused _ _ _ _ => (p1, Except.ok ())
  | InternalPlayerStatus.stopped =>
      match p1.queue with
      | [] => (p1, Except.ok ())
      | path :: rest =>
          let p2 := { p1 with queue := rest }
          match env.fetchAndLoad path with
          | Except.error e => (p2, Except.error e)
          | Except.ok (song, m) =>
              ({ p2 with
                  status := InternalPlayerStatus.playingOrPaused song m 0 false },
                Except.ok ())

/-- `Player::pause` (mod.rs 92-104): set the pause flag when playing, no-op
when stopped. -/
def Player.pause (p : Player) : Player × Except String Unit :=
  match p.status with
  | InternalPlayerStatus.playingOrPaused song m d _ =>
      ({ p with status := InternalPlayerStatus.playingOrPaused song m d true },
        Except.ok ())
  | InternalPlayerStatus.stopped => (p, Except.ok ())

/-- `Player::play_pause` (mod.rs 107-119): flip the pause flag when playing. -/
def Player.playPause (p : Player) : Player × Except String Unit :=
  match p.status with
  | InternalPlayerStatus.playingOrPaused song m d paused =>
      ({ p with status := InternalPlayerStatus.playingOrPaused song m d (xor paused true) },
        Except.ok ())
  | InternalPlayerStatus.stopped => (p, Except.ok ())

/-- `Player::stop` (mod.rs 122-126): drop the stream, become stopped. -/
def Player.stop (p : Player) : Player × Except String Unit :=
  ({ p with status := InternalPlayerStatus.stopped }, Except.ok ())

/-- `Player::skip` (mod.rs 129-134): stop, then play. -/
def Player.skip (env : Env) (p : Player) : Player × Except String Unit :=
  match p.stop with
  | (p1, Except.error e) => (p1, Except.error e)
  | (p1, Except.ok _) => p1.play env

/-- `Player::enqueue` (mod.rs 138-146): push the path to the back of the
queue; if the player is stopped, immediately attempt to play. -/
def Player.enqueue (env : Env) (p : Player) (path : String) : Player × Except String Unit :=
  let p1 := { p with queue := p.queue ++ [path] }
  match p1.status with
  | InternalPlayerStatus.stopped => p1.play env
  | _ => (p1, Except.ok ())

/-- `Player::dequeue` (mod.rs 149-155): `VecDeque::remove(index)` removes the
element when the index is in range; out of range it returns `None`, leaving
the queue untouched, and the handler returns an error. -/
def Player.dequeue (p : Player) (index : Nat) : Player × Except String Unit :=
  if index < p.queue.length then
    ({ p with queue := p.queue.eraseIdx index }, Except.ok ())
  else (p, Except.error ("No song at index " ++ toString index))

/-- `Player::clear` (mod.rs 158-163): empty the queue, then stop. -/
def Player.clear (p : Player) : Player × Except String Unit :=
  let p1 := { p with queue := [] }
  p1.stop

/-- One iteration of the actor command loop (mod.rs 302-312): dispatch the
command to its handler and `.unwrap()` the result — an error result panics
the player thread, modelled as `none`. -/
def Player.runStep (env : Env) (p : Player) (c : Command) : Option Player :=
  let r :=
    match c with
    | Command.play => p.play env
    | Command.pause => p.pause
    | Command.playPause => p.playPause
    | Command.skip => p.skip env
    | Command.stop => p.stop
    | Command.clear => p.clear
    | Command.enqueue path => p.enqueue env path
    | Command.dequeue i => p.dequeue i
  match r.snd with
  | Except.ok _ => some r.fst
  | Except.error _ => none

/-- Run a list of commands in send order through the actor loop; `none` as
soon as one of them panics the thread. -/
def Player.runSteps (env : Env) (p : Player) : List Command → Option Player
  | [] => some p
  | c :: cs =>
      match p.runStep env c with
      | none => none
      | some p2 => Player.runSteps env p2 cs

/-- Projection: the current song, when playing or paused. -/
def Player.currentSong (p : Player) : Option Song :=
  match p.status with
  | InternalPlayerStatus.playingOrPaused song _ _ _ => some song
  | InternalPlayerStatus.stopped => none

/-- Projection: the played-duration cell, when playing or paused. -/
def Player.playedDuration (p : Player) : Option ℚ :=
  match p.status with
  | InternalPlayerStatus.playingOrPaused _ _ d _ => some d
  | InternalPlayerStatus.stopped => none

/-- Projection: the pause flag, when playing or paused. -/
def Player.pausedFlag (p : Player) : Option Bool :=
  match p.status with
  | InternalPlayerStatus.playingOrPaused _ _ _ paused => some paused
  | InternalPlayerStatus.stopped => none

/-! ## Concrete instances used by witnesses and counterexamples -/

/-- A concrete song. -/
def songA : Song := ⟨"a"⟩

/-- An environment whose cache knows only the path of `songA` (as a file
entry) and whose loader always succeeds without metadata. -/
def envA : Env :=
  { cacheGet := fun path =>
      if path = ("a") then Except.ok (some (CacheEntry.file songA)) else Except.ok none
  , load := fun _ => Except.ok none }

/-- An environment whose cache finds nothing: every lookup answers that the
song is absent. -/
def envMissing : Env :=
  { cacheGet := fun _ => Except.ok none
  , load := fun _ => Except.ok none }

/-! ## Theorems -/

/-- C1 counterexample: with a two-entry queue whose front path is absent from
the cache, a `Play` command followed by any further command is never
processed to completion — the run loop `.unwrap()`s the error from
`Player::play` and panics the player thread, so the actor does not continue
processing subsequent commands. -/
theorem play_load_failure_cex :
    Player.runSteps envMissing ⟨InternalPlayerStatus.stopped, ["bad", "good"]⟩
      [Command.play, Command.stop] = none := by decide

/-- C1 (amended): when the cache lookup or `Loader.load` fails for the path
popped from the queue during `Play`, the failed path is already dropped from
the queue (popped before the fallible steps, hence never retried) and
`Player::play` returns the error; but the run loop unwraps that error, so
the actor thread panics instead of logging and continuing. -/
theorem play_load_failure_drops_path (env : Env) (path : String)
    (rest : List String) (msg : String)
    (hfail : env.fetchAndLoad path = Except.error msg) :
    Player.play env ⟨InternalPlayerStatus.stopped, path :: rest⟩
      = (⟨InternalPlayerStatus.stopped, rest⟩, Except.error msg)
    ∧ Player.runStep env ⟨InternalPlayerStatus.stopped, path :: rest⟩ Command.play
      = none := by
  constructor
  · simp [Player.play, hfail]
  · simp [Player.runStep, Player.play, hfail]

/-- C1 witness: the amended statement at a concrete environment and state. -/
theorem play_load_failure_drops_path_witness :
    Player.play envMissing ⟨InternalPlayerStatus.stopped, ["x", "y"]⟩
      = (⟨InternalPlayerStatus.stopped, ["y"]⟩, Except.error ("Song not found in cache"))
    ∧ Player.runStep envMissing ⟨InternalPlayerStatus.stopped, ["x", "y"]⟩ Command.play
      = none :=
  play_load_failure_drops_path envMissing ("x") ["y"]
    ("Song not found in cache") (by decide)

/-- C2 counterexample: a decode error pulled from the Loader inside the
realtime callback is `.unwrap()`ed, so the audio-callback thread panics; it
does not degrade the buffer to silence, and it does not trigger a `Skip`. -/
theorem callback_decode_error_cex :
    callback 1 2 44100 false 4 ⟨[], 0, [PacketEvent.packet 0 (Except.error ("bad"))]⟩ 0 10
      = CallbackResult.panic := by decide

/-- C2 (amended): whenever the destination buffer is non-empty, the backlog
is below the destination length, and the next pull from the Loader returns a
decode (or read) error, the callback panics the audio thread — the
`.unwrap()` on the decoder result aborts instead of treating the error as
end-of-stream. -/
theorem callback_decode_error_panics (gain channels rate : ℚ) (destLen : Nat)
    (buffer : List ℚ) (tid : Nat) (events : List PacketEvent) (dur : ℚ)
    (fuel : Nat) (msg : String) (hlen : 0 < destLen)
    (hbuf : buffer.length < destLen)
    (herr : decoderNext tid events = Except.error msg) :
    callback gain channels rate false destLen ⟨buffer, tid, events⟩ dur (fuel + 1)
      = CallbackResult.panic := by
  have h0 : destLen ≠ 0 := by omega
  unfold callback fillLoop
  simp [h0, hbuf, herr]

/-- C2 witness: the amended statement at a concrete input (a read error as
the next reader event). -/
theorem callback_decode_error_panics_witness :
    callback 1 2 44100 false 3 ⟨[0], 5, [PacketEvent.readErr ("io")]⟩ 2 (9 + 1)
      = CallbackResult.panic :=
  callback_decode_error_panics 1 2 44100 3 [0] 5 [PacketEvent.readErr ("io")] 2 9
    ("Failed to read packet io") (by decide) (by decide) (by decide)

/-- C3 counterexample: `Dequeue(5)` on a two-element queue is fatal to the
actor — the run loop unwraps the out-of-range error and panics, so the
command is not merely reported as a non-fatal error. -/
theorem dequeue_out_of_range_cex :
    Player.runSteps envA ⟨InternalPlayerStatus.stopped, ["q1", "q2"]⟩
      [Command.dequeue 5] = none := by decide

/-- C3 (amended): for every queue of length n and index i ≥ n, the dequeue
handler leaves the queue and all other player state unchanged and returns an
out-of-range error; but the run loop unwraps that error, so the command
panics the actor thread rather than being non-fatal. -/
theorem dequeue_out_of_range_spec (env : Env) (p : Player) (i : Nat)
    (h : p.queue.length ≤ i) :
    p.dequeue i = (p, Except.error ("No song at index " ++ toString i))
    ∧ Player.runStep env p (Command.dequeue i) = none := by
  have hnot : ¬ i < p.queue.length := Nat.not_lt.mpr h
  constructor
  · simp [Player.dequeue, hnot]
  · simp [Player.runStep, Player.dequeue, hnot]

/-- C3 witness: the amended statement at a concrete state and index. -/
theorem dequeue_out_of_range_spec_witness :
    Player.dequeue ⟨InternalPlayerStatus.stopped, ["s1", "s2", "s3"]⟩ 7
      = (⟨InternalPlayerStatus.stopped, ["s1", "s2", "s3"]⟩,
          Except.error ("No song at index 7"))
    ∧ Player.runStep envMissing ⟨InternalPlayerStatus.stopped, ["s1", "s2", "s3"]⟩
        (Command.dequeue 7) = none :=
  dequeue_out_of_range_spec envMissing ⟨InternalPlayerStatus.stopped, ["s1", "s2", "s3"]⟩ 7
    (by decide)

/-- C4: each call to the decoder pull function consumes exactly the next
reader event: a packet of a different (ignored) track yields
`(none, false)`, clean end of stream yields `(none, true)`, a successfully
decoded packet of the selected track yields `(some chunk, false)`, and
decode or read failures are returned as errors (never a panic: the pull
function is total into `Except`). -/
theorem decoderNext_spec (tid : Nat) (rest : List PacketEvent) :
    (∀ tid2 payload, tid2 ≠ tid →
      decoderNext tid (PacketEvent.packet tid2 payload :: rest)
        = Except.ok ((none, false), rest))
    ∧ decoderNext tid (PacketEvent.endOfStream :: rest)
        = Except.ok ((none, true), rest)
    ∧ (∀ samples, decoderNext tid (PacketEvent.packet tid (Except.ok samples) :: rest)
        = Except.ok ((some samples, false), rest))
    ∧ (∀ e, decoderNext tid (PacketEvent.packet tid (Except.error e) :: rest)
        = Except.error ("Failed to decode packet " ++ e))
    ∧ (∀ e, decoderNext tid (PacketEvent.readErr e :: rest)
        = Except.error ("Failed to read packet " ++ e)) := by
  refine ⟨fun tid2 payload hne => ?_, rfl, fun samples => ?_, fun e => ?_, fun e => ?_⟩
  · simp [decoderNext, hne]
  · simp [decoderNext]
  · simp [decoderNext]
  · simp [decoderNext]

/-- C4 witness: the ignored-track case of the pull specification at a
concrete track id and event list. -/
theorem decoderNext_spec_witness :
    decoderNext 7 [PacketEvent.packet 3 (Except.ok []), PacketEvent.endOfStream]
      = Except.ok ((none, false), [PacketEvent.endOfStream]) :=
  (decoderNext_spec 7 [PacketEvent.endOfStream]).1 3 (Except.ok []) (by decide)

/-- C5: starting from a stopped player with an empty queue, the command
sequence `Enqueue a; Enqueue b; Play` (applied in send order) ends with the
song of `a` as the current song — playing, unpaused, duration zero — and `b`
as the sole remaining queue entry. -/
theorem enqueue_enqueue_play_fifo (env : Env) (a b : String) (song : Song)
    (m : Option String) (h : env.fetchAndLoad a = Except.ok (song, m)) :
    Player.runSteps env ⟨InternalPlayerStatus.stopped, []⟩
        [Command.enqueue a, Command.enqueue b, Command.play]
      = some ⟨InternalPlayerStatus.playingOrPaused song m 0 false, [b]⟩ := by
  simp [Player.runSteps, Player.runStep, Player.enqueue, Player.play, h]

/-- C5 witness: the FIFO property at a concrete environment and paths. -/
theorem enqueue_enqueue_play_fifo_witness :
    Player.runSteps envA ⟨InternalPlayerStatus.stopped, []⟩
        [Command.enqueue ("a"), Command.enqueue ("b"), Command.play]
      = some ⟨InternalPlayerStatus.playingOrPaused songA none 0 false, ["b"]⟩ :=
  enqueue_enqueue_play_fifo envA ("a") ("b") songA none (by decide)

/-- C6: a song whose ReplayGain track-gain tag is the string
`"-6.0 dB"` gets the linear gain factor `10 ^ (-6 / 20)`; a song with no
ReplayGain track-gain tag gets gain factor `1`. -/
theorem gainFactor_spec :
    gainFactor (some (TagValue.str ("-6.0 dB"))) = (10 : ℝ) ^ ((-6 : ℝ) / 20)
    ∧ gainFactor none = 1 := by
  constructor
  · have h : replayGainDb (some (TagValue.str ("-6.0 dB"))) = some (-6 : ℚ) := by decide
    unfold gainFactor
    rw [h]
    norm_num
  · rfl

/-- C7: whenever the pause flag is set, the audio callback fills the whole
destination buffer with silence and returns: the sample backlog and decoder
state are untouched, no `Skip` is sent, and the played-duration cell is not
advanced. -/
theorem callback_paused_silence (gain channels rate : ℚ) (destLen : Nat)
    (st : PlaybackState) (dur : ℚ) (fuel : Nat) :
    callback gain channels rate true destLen st dur fuel
      = CallbackResult.ok (List.replicate destLen 0) st 0 dur := rfl

/-- C8: in every player state, `Skip` is exactly `Stop` followed by `Play`;
consequently it yields the stopped state with the queue unchanged when the
queue is empty, and (when the former queue front resolves and loads
successfully) the playing state on the former queue front with the rest of
the queue remaining. -/
theorem skip_eq_stop_then_play (env : Env) (p : Player) :
    p.skip env = Player.play env (p.stop).fst
    ∧ (p.queue = [] →
        p.skip env = (⟨InternalPlayerStatus.stopped, []⟩, Except.ok ()))
    ∧ (∀ path rest song m, p.queue = path :: rest →
        env.fetchAndLoad path = Except.ok (song, m) →
        p.skip env
          = (⟨InternalPlayerStatus.playingOrPaused song m 0 false, rest⟩,
              Except.ok ())) := by
  obtain ⟨st, q⟩ := p
  refine ⟨rfl, fun hq => ?_, fun path rest song m hq hf => ?_⟩
  · subst hq; rfl
  · subst hq; simp [Player.skip, Player.stop, Player.play, hf]

/-- C8 witness: `Skip` on a concrete playing player with a loadable queue
front. -/
theorem skip_eq_stop_then_play_witness :
    Player.skip envA ⟨InternalPlayerStatus.playingOrPaused songA none 5 true, ["a"]⟩
      = (⟨InternalPlayerStatus.playingOrPaused songA none 0 false, []⟩, Except.ok ()) :=
  (skip_eq_stop_then_play envA
      ⟨InternalPlayerStatus.playingOrPaused songA none 5 true, ["a"]⟩).2.2
    ("a") [] songA none rfl (by decide)

/-- C9: `Pause` is idempotent and frame-preserving: pausing twice equals
pausing once, the handler never fails, and it leaves the queue, the current
song and the played-duration cell unchanged; the pause flag becomes `true`
whenever a stream exists (in particular it stays `true` if already set) and
stays absent when stopped. -/
theorem pause_idempotent_frame (p : Player) :
    ((p.pause).fst.pause).fst = (p.pause).fst
    ∧ (p.pause).snd = Except.ok ()
    ∧ (p.pause).fst.queue = p.queue
    ∧ (p.pause).fst.currentSong = p.currentSong
    ∧ (p.pause).fst.playedDuration = p.playedDuration
    ∧ (p.pause).fst.pausedFlag = (p.pausedFlag).map (fun _ => true) := by
  obtain ⟨st, q⟩ := p
  cases st <;>
    simp [Player.pause, Player.currentSong, Player.playedDuration, Player.pausedFlag]

/-- C10: `Stop` leaves the queue exactly unchanged and only sets the status
to stopped; it never fails; and it is idempotent — applying it to the
already-stopped result is a complete no-op. -/
theorem stop_preserves_queue_idempotent (p : Player) :
    (p.stop).fst = ⟨InternalPlayerStatus.stopped, p.queue⟩
    ∧ (p.stop).snd = Except.ok ()
    ∧ ((p.stop).fst).stop = p.stop := by
  obtain ⟨st, q⟩ := p
  simp [Player.stop]

end Ramp
